import Mathlib

/-!
# Verification of the DebugPrinter stack-trace subsystem

Shallow embedding of the stack-trace core of `DebugPrinter.hpp` (namespace
`fsc`, class `DebugPrinter`): the frame-line parser (`prog_part`,
`mangled_part`, `offset_part`, `address_part`), the demangle wrapper and the
per-frame switch inside `stack()`, the frame-window arithmetic of `stack()`
(50-frame ceiling, skip count, unsigned header subtraction), the
`set_color` / `is_number` validation, the fatal-signal handler, and the
formatting-state save/restore of `operator<<`.

Machine integers are modelled as `Nat` with explicit reductions modulo
`2^32` (C++ `unsigned int`) and `2^64` (`std::string::size_type`) where the
source arithmetic can wrap.
-/

/-! ## C++ string primitives

`std::string` is modelled as Lean `String` (a list of characters);
`std::string::size_type` is modelled as `Nat` with `npos = 2^64 - 1` and
explicit `% 2^64` where the source adds to a possible `npos`. -/

/-- Value of `std::string::npos` for a 64-bit `size_type`. -/
def npos : Nat := 2 ^ 64 - 1

/-- Index of the first occurrence of `c` in `l`, if any (plain structural
recursion, used to model `std::string::find`). -/
def charFind : List Char → Char → Option Nat
  | [], _ => none
  | a :: as, c => if a = c then some 0 else (charFind as c).map (· + 1)

/-- Model of `str.find(c, pos)`: absolute index of the first occurrence of
`c` at position `≥ pos`, or `npos` when there is none (including when
`pos` is past the end). -/
def strFind (s : String) (c : Char) (pos : Nat) : Nat :=
  match charFind (s.data.drop pos) c with
  | some i => pos + i
  | none => npos

/-- Model of `str.substr(pos, count)`: `none` models a thrown
`std::out_of_range` (when `pos > size()`); otherwise the count is clamped
to the remaining length. -/
def substrCpp (s : String) (pos count : Nat) : Option String :=
  if s.length < pos then none
  else some (String.mk ((s.data.drop pos).take count))

/-! ## Frame-line parser

Embedding of the four extractors of `DebugPrinter.hpp` (non-`__APPLE__`
branch, lines 549–566).  Note `mangled_part` computes
`pos = str.find("(") + 1`, which wraps to `0` (modulo `2^64`) when `(` is
absent, exactly as `size_type` arithmetic does in the source. -/

/-- Model of `DebugPrinter::prog_part`: `str.substr(0, str.find("("))`. -/
def prog_part (s : String) : Option String :=
  substrCpp s 0 (strFind s '(' 0)

/-- Model of `DebugPrinter::mangled_part`. -/
def mangled_part (s : String) : Option String :=
  let pos := (strFind s '(' 0 + 1) % 2 ^ 64
  if strFind s '+' pos = npos then some ""
  else substrCpp s pos (strFind s '+' pos - pos)

/-- Model of `DebugPrinter::offset_part`. -/
def offset_part (s : String) : Option String :=
  let pos := strFind s '+' 0
  if pos = npos then some ""
  else substrCpp s (pos + 1) (strFind s ')' pos - pos - 1)

/-- Model of `DebugPrinter::address_part`. -/
def address_part (s : String) : Option String :=
  let pos := strFind s '[' 0
  if pos = npos then some ""
  else substrCpp s (pos + 1) (strFind s ']' pos - pos - 1)

/-! ### Helper lemmas about the string primitives -/

theorem charFind_eq_none_iff (l : List Char) (c : Char) :
    charFind l c = none ↔ c ∉ l := by
  induction l with
  | nil => simp [charFind]
  | cons a as ih =>
    by_cases h : a = c
    · subst h; simp [charFind]
    · simp only [charFind, if_neg h, Option.map_eq_none', ih, List.mem_cons,
        not_or]
      constructor
      · intro h2; exact ⟨fun hca => h hca.symm, h2⟩
      · exact fun h2 => h2.2

theorem charFind_lt_length (l : List Char) (c : Char) (i : Nat)
    (h : charFind l c = some i) : i < l.length := by
  induction l generalizing i with
  | nil => simp [charFind] at h
  | cons a as ih =>
    by_cases hac : a = c
    · simp [charFind, hac] at h
      simp [← h]
    · simp [charFind, hac, Option.map_eq_some'] at h
      obtain ⟨j, hj, rfl⟩ := h
      have := ih j hj
      simp; omega

theorem strFind_eq_npos (s : String) (c : Char) (pos : Nat)
    (h : c ∉ s.data) : strFind s c pos = npos := by
  have hd : charFind (s.data.drop pos) c = none :=
    (charFind_eq_none_iff _ _).mpr (fun hm => h (List.drop_subset _ _ hm))
  unfold strFind
  rw [hd]

theorem strFind_cases (s : String) (c : Char) (pos : Nat) :
    strFind s c pos = npos ∨
    (pos ≤ strFind s c pos ∧ strFind s c pos < s.length) := by
  rcases h : charFind (s.data.drop pos) c with _ | i
  · left; unfold strFind; rw [h]
  · right
    have hi := charFind_lt_length _ _ _ h
    rw [List.length_drop] at hi
    have hL : s.data.length = s.length := rfl
    simp only [strFind, h]
    omega

theorem substrCpp_of_le (s : String) (pos count : Nat) (h : pos ≤ s.length) :
    substrCpp s pos count = some (String.mk ((s.data.drop pos).take count)) := by
  simp [substrCpp, Nat.not_lt.mpr h]

/-- Position computed by `mangled_part` (`find("(") + 1`, wrapping modulo
`2^64`) never exceeds the string length. -/
theorem mangled_pos_le (s : String) : (strFind s '(' 0 + 1) % 2 ^ 64 ≤ s.length := by
  rcases strFind_cases s '(' 0 with hc | ⟨_, hlt⟩
  · rw [hc]
    have h1 : npos + 1 = 2 ^ 64 := by norm_num [npos]
    simp [h1]
  · calc (strFind s '(' 0 + 1) % 2 ^ 64 ≤ strFind s '(' 0 + 1 := Nat.mod_le _ _
      _ ≤ s.length := hlt

theorem prog_part_total (s : String) : ∃ v, prog_part s = some v := by
  simp [prog_part, substrCpp]

theorem mangled_part_total (s : String) : ∃ v, mangled_part s = some v := by
  simp only [mangled_part]
  split
  · exact ⟨_, rfl⟩
  · exact ⟨_, substrCpp_of_le _ _ _ (mangled_pos_le s)⟩

theorem offset_part_total (s : String) : ∃ v, offset_part s = some v := by
  simp only [offset_part]
  split
  · exact ⟨_, rfl⟩
  · rename_i h
    rcases strFind_cases s '+' 0 with hc | ⟨_, hlt⟩
    · exact absurd hc h
    · exact ⟨_, substrCpp_of_le _ _ _ hlt⟩

theorem address_part_total (s : String) : ∃ v, address_part s = some v := by
  simp only [address_part]
  split
  · exact ⟨_, rfl⟩
  · rename_i h
    rcases strFind_cases s '[' 0 with hc | ⟨_, hlt⟩
    · exact absurd hc h
    · exact ⟨_, substrCpp_of_le _ _ _ hlt⟩

theorem prog_part_of_no_paren (s : String) (hlen : s.length ≤ npos)
    (hp : '(' ∉ s.data) : prog_part s = some s := by
  rw [prog_part, strFind_eq_npos _ _ _ hp, substrCpp_of_le _ _ _ (Nat.zero_le _)]
  rw [List.drop_zero, List.take_of_length_le (by exact hlen)]

theorem mangled_part_of_no_plus (s : String) (hplus : '+' ∉ s.data) :
    mangled_part s = some "" := by
  rw [mangled_part]
  simp [strFind_eq_npos _ _ _ hplus]

theorem offset_part_of_no_plus (s : String) (hplus : '+' ∉ s.data) :
    offset_part s = some "" := by
  rw [offset_part]
  simp [strFind_eq_npos _ _ _ hplus]

theorem address_part_of_no_bracket (s : String) (hbr : '[' ∉ s.data) :
    address_part s = some "" := by
  rw [address_part]
  simp [strFind_eq_npos _ _ _ hbr]

/-! ### Claims C3, C4, C5 -/

/-- Claim C3 counterexample: the line `"abc"` has no `(` delimiter, yet
`prog_part` returns the whole line `"abc"`, not the empty string the claim
demands for a field whose delimiter is missing. -/
theorem prog_part_missing_delim_not_empty :
    '(' ∉ "abc".data ∧ prog_part "abc" = some "abc" ∧ "abc" ≠ "" := by
  decide

/-- Claim C3 (amended): the frame-line parser is total — each of the four
extractors returns a value (never a thrown `out_of_range`) on every input —
and a missing delimiter yields the empty string for `mangled_part`,
`offset_part` and `address_part`; `prog_part`, however, returns the prefix
before the first `(`, which is the whole input (not the empty string) when
`(` is absent. -/
theorem parser_total_missing_delimiters (s : String) (hlen : s.length ≤ npos) :
    (∃ v, prog_part s = some v) ∧ (∃ v, mangled_part s = some v) ∧
    (∃ v, offset_part s = some v) ∧ (∃ v, address_part s = some v) ∧
    ('+' ∉ s.data → mangled_part s = some "" ∧ offset_part s = some "") ∧
    ('[' ∉ s.data → address_part s = some "") ∧
    ('(' ∉ s.data → prog_part s = some s) :=
  ⟨prog_part_total s, mangled_part_total s, offset_part_total s,
   address_part_total s,
   fun h => ⟨mangled_part_of_no_plus s h, offset_part_of_no_plus s h⟩,
   fun h => address_part_of_no_bracket s h,
   fun h => prog_part_of_no_paren s hlen h⟩

/-- Witness for the amended claim C3, at the concrete input `"ab"`. -/
theorem parser_total_missing_delimiters_witness :
    prog_part "ab" = some "ab" ∧ mangled_part "ab" = some "" ∧
    offset_part "ab" = some "" ∧ address_part "ab" = some "" :=
  ⟨(parser_total_missing_delimiters "ab" (by decide)).2.2.2.2.2.2 (by decide),
   ((parser_total_missing_delimiters "ab" (by decide)).2.2.2.2.1 (by decide)).1,
   ((parser_total_missing_delimiters "ab" (by decide)).2.2.2.2.1 (by decide)).2,
   (parser_total_missing_delimiters "ab" (by decide)).2.2.2.2.2.1 (by decide)⟩

/-- Claim C5 counterexample: the line `"a+b"` contains no `(`, yet
`mangled_part` is `"a"` (the `find("(") + 1` position wraps to `0`, so the
text before the `+` is taken), not the empty string the claim demands. -/
theorem no_paren_with_plus_not_all_empty :
    '(' ∉ "a+b".data ∧ mangled_part "a+b" = some "a" ∧ "a" ≠ "" := by
  decide

/-- Claim C5 (amended): for every input line containing no `(`, no `+` and
no `[`, parsing yields module path equal to the entire input line and all
other fields empty.  (Without excluding `+` and `[`, a `(`-free line such
as `"a+b"` still produces a non-empty mangled field, because the absent-`(`
position wraps to the start of the string.) -/
theorem parse_line_without_specials (s : String) (hlen : s.length ≤ npos)
    (hp : '(' ∉ s.data) (hplus : '+' ∉ s.data) (hbr : '[' ∉ s.data) :
    prog_part s = some s ∧ mangled_part s = some "" ∧
    offset_part s = some "" ∧ address_part s = some "" :=
  ⟨prog_part_of_no_paren s hlen hp, mangled_part_of_no_plus s hplus,
   offset_part_of_no_plus s hplus, address_part_of_no_bracket s hbr⟩

/-- Witness for the amended claim C5, at the concrete input `"abc"`. -/
theorem parse_line_without_specials_witness :
    prog_part "abc" = some "abc" ∧ mangled_part "abc" = some "" ∧
    offset_part "abc" = some "" ∧ address_part "abc" = some "" :=
  parse_line_without_specials "abc" (by decide) (by decide) (by decide)
    (by decide)

/-- Claim C4: parsing the frame line `"./prog(_Z3fooi+0x1a) [0x4005b2]"`
yields module path `"./prog"`, mangled symbol `"_Z3fooi"`, function offset
`"0x1a"` and module offset `"0x4005b2"`. -/
theorem parse_example_line :
    prog_part "./prog(_Z3fooi+0x1a) [0x4005b2]" = some "./prog" ∧
    mangled_part "./prog(_Z3fooi+0x1a) [0x4005b2]" = some "_Z3fooi" ∧
    offset_part "./prog(_Z3fooi+0x1a) [0x4005b2]" = some "0x1a" ∧
    address_part "./prog(_Z3fooi+0x1a) [0x4005b2]" = some "0x4005b2" := by
  decide

/-! ## Symbol demangler and per-frame processing

`abi::__cxa_demangle` is a platform facility outside this repository; it is
modelled abstractly as a function `cxa : String → Int × Option String`
returning the ABI status code and, on status `0`, the demangled text.  The
wrapper `DebugPrinter::demangle` (lines 508–512) and the per-frame switch
inside `stack()` (lines 334–361) are embedded from the source. -/

/-- Model of `DebugPrinter::demangle`: returns the demangled text when the
ABI reports status `0`, and the original string otherwise, together with
the status code. -/
def demangle (cxa : String → Int × Option String) (str : String) :
    String × Int :=
  ((if (cxa str).1 = 0 then ((cxa str).2).getD str else str), (cxa str).1)

/-- Model of one iteration of the frame loop of `DebugPrinter::stack`
(CXXABI branch): parse the symbol line, demangle, and emit the lines the
`switch` on the demangle status produces on the output stream.  (The
side-channel `std::cerr` diagnostic for an empty mangled part is not part
of the output stream and is not modelled.)  The extractor fallback `[]` is
unreachable: the extractors are total. -/
def processFrame (cxa : String → Int × Option String) (compact : Bool)
    (line : String) : List String :=
  match prog_part line, mangled_part line, offset_part line,
      address_part line with
  | some prog, some mangled, some offset, some mainoffset =>
    let dm := demangle cxa mangled
    let demangled := if dm.2 = -2 then mangled else dm.1
    if dm.2 = -1 then ["DebugPrinter error: Could not allocate memory!"]
    else if dm.2 = -3 then
      ["DebugPrinter error: Invalid argument to demangle()"]
    else if compact = false then
      ["  " ++ prog ++ ":  " ++ demangled ++ "\t+" ++ offset ++ "\t[+" ++
        mainoffset ++ "]"]
    else [demangled]
  | _, _, _, _ => []

theorem processFrame_length_le (cxa : String → Int × Option String)
    (compact : Bool) (line : String) :
    (processFrame cxa compact line).length ≤ 1 := by
  unfold processFrame
  split
  · dsimp only
    split_ifs <;> simp
  · simp

theorem processFrame_length_eq (cxa : String → Int × Option String)
    (compact : Bool) (line : String) :
    (processFrame cxa compact line).length = 1 := by
  obtain ⟨p, hp⟩ := prog_part_total line
  obtain ⟨m, hm⟩ := mangled_part_total line
  obtain ⟨o, ho⟩ := offset_part_total line
  obtain ⟨a, ha⟩ := address_part_total line
  unfold processFrame
  rw [hp, hm, ho, ha]
  dsimp only
  split_ifs <;> simp

/-- Claim C6: when the ABI facility reports the invalid-input status `-2`
(every string that is not a valid mangled name), `demangle` returns the
original input with a nonzero status, and the frame's line is still
emitted — exactly one output line, which in compact mode is the original
mangled text and in verbose mode embeds it as the symbol field. -/
theorem demangle_invalid_input_fallback (cxa : String → Int × Option String)
    (m prog off addr line : String) (hcxa : cxa m = (-2, none))
    (hp : prog_part line = some prog) (hm : mangled_part line = some m)
    (ho : offset_part line = some off) (ha : address_part line = some addr) :
    demangle cxa m = (m, -2) ∧ (-2 : Int) ≠ 0 ∧
    processFrame cxa true line = [m] ∧
    processFrame cxa false line =
      ["  " ++ prog ++ ":  " ++ m ++ "\t+" ++ off ++ "\t[+" ++ addr ++ "]"] := by
  have hd : demangle cxa m = (m, -2) := by
    simp [demangle, hcxa]
  refine ⟨hd, by decide, ?_, ?_⟩ <;>
  · unfold processFrame
    rw [hp, hm, ho, ha]
    dsimp only
    rw [hd]
    norm_num

/-- Witness for claim C6: an ABI oracle that always reports invalid input,
applied to the concrete frame line `"./prog(foo+0x1a) [0x4005b2]"` (the
C-linkage symbol `foo` is not a valid mangled name). -/
theorem demangle_invalid_input_fallback_witness :
    demangle (fun _ => (-2, none)) "foo" = ("foo", -2) ∧ (-2 : Int) ≠ 0 ∧
    processFrame (fun _ => (-2, none)) true "./prog(foo+0x1a) [0x4005b2]" =
      ["foo"] ∧
    processFrame (fun _ => (-2, none)) false "./prog(foo+0x1a) [0x4005b2]" =
      ["  " ++ "./prog" ++ ":  " ++ "foo" ++ "\t+" ++ "0x1a" ++ "\t[+" ++
        "0x4005b2" ++ "]"] :=
  demangle_invalid_input_fallback (fun _ => (-2, none)) "foo" "./prog" "0x1a"
    "0x4005b2" "./prog(foo+0x1a) [0x4005b2]" rfl (by decide) (by decide)
    (by decide) (by decide)

/-! ## Color configuration

Embedding of `DebugPrinter::set_color(const std::string)` (lines 231–237)
and its helper `is_number` (lines 570–573).  The source validates
`str.substr(0,1)` and `str.substr(2,2)` only; `substr` throws
`std::out_of_range` when its start position is past the end, and the
`&&` is short-circuiting (the second `substr` is not evaluated when the
first check fails). -/

/-- Model of `DebugPrinter::is_number`: nonempty and all digits. -/
def is_number (s : String) : Bool :=
  !s.data.isEmpty && s.data.all (fun c => c.isDigit)

/-- Outcome of a `set_color` call: the new highlight/reset escape strings,
or one of the two kinds of thrown exception. -/
inductive SetColorOutcome where
  | ok (hcol hcol_r : String)
  | invalidArgument
  | outOfRange
deriving DecidableEq

/-- Model of `DebugPrinter::set_color`: `invalidArgument` models the thrown
`std::runtime_error`, `outOfRange` the `std::out_of_range` escaping from
`substr(2,2)` on short inputs.  The member assignments to `hcol_` /
`hcol_r_` happen only on the non-throwing path, so an error outcome leaves
the previously configured color in effect. -/
def set_color (str : String) : SetColorOutcome :=
  match substrCpp str 0 1 with
  | none => .outOfRange
  | some s1 =>
    if is_number s1 then
      match substrCpp str 2 2 with
      | none => .outOfRange
      | some s2 =>
        if is_number s2 then .ok ("\x1b[" ++ str ++ "m") "\x1b[0m"
        else .invalidArgument
    else .invalidArgument

/-- Claim C7 counterexample: the default color code `"0;31"` is not a
string of digits (`;` is not a digit), yet `set_color` accepts it and
updates the highlighting color — the validation looks only at positions
0 and 2–3. -/
theorem set_color_accepts_nonnumeric :
    is_number "0;31" = false ∧
    set_color "0;31" = SetColorOutcome.ok "\x1b[0;31m" "\x1b[0m" := by
  decide

/-- Claim C7 (amended): `set_color(s)` accepts `s` — updating the
highlighting color — exactly when `s` has length at least 3, its first
character is a digit, and its characters at positions 2 and (when present)
3 are digits; everything else about `s` is unchecked, so non-numeric codes
such as `"0;31"` are accepted.  A single-digit input escapes with
`std::out_of_range` from `substr(2,2)` rather than being accepted; on every
error outcome no new color strings are produced, so the prior configuration
remains in effect. -/
theorem set_color_accepts_iff (s : String) :
    ((∃ h hr, set_color s = SetColorOutcome.ok h hr) ↔
      ((s.data[2]?).isSome = true ∧ (s.data[0]?).all Char.isDigit = true ∧
       (s.data[2]?).all Char.isDigit = true ∧
       (s.data[3]?).all Char.isDigit = true)) ∧
    (∀ c : Char, c.isDigit = true →
      set_color (String.mk [c]) = SetColorOutcome.outOfRange) := by
  constructor
  · obtain ⟨l⟩ := s
    rcases l with _ | ⟨a, _ | ⟨b, _ | ⟨e, _ | ⟨d, rest'⟩⟩⟩⟩
    · simp [set_color, substrCpp, is_number]
    · simp only [set_color, substrCpp, is_number]
      norm_num
      split <;> simp
    · simp [set_color, substrCpp, is_number]
    · simp only [set_color, substrCpp, is_number]
      norm_num
      split_ifs <;> simp_all
    · have hle : 2 ≤ (String.mk (a :: b :: e :: d :: rest')).length := by
        simp [String.length]
      have hsub2 := substrCpp_of_le (String.mk (a :: b :: e :: d :: rest')) 2 2
        hle
      norm_num at hsub2
      have hsub1 := substrCpp_of_le (String.mk (a :: b :: e :: d :: rest')) 0 1
        (Nat.zero_le _)
      norm_num at hsub1
      simp only [set_color, hsub1, hsub2, is_number]
      norm_num
      split_ifs <;> simp_all
  · intro c hc
    simp [set_color, substrCpp, is_number, hc]

/-- Witness for the amended claim C7: the non-digit code `"1;34"` is
accepted, and the single digit `'7'` escapes with `out_of_range`. -/
theorem set_color_accepts_iff_witness :
    (∃ h hr, set_color "1;34" = SetColorOutcome.ok h hr) ∧
    set_color (String.mk ['7']) = SetColorOutcome.outOfRange :=
  ⟨(set_color_accepts_iff "1;34").1.mpr (by decide),
   (set_color_accepts_iff "1;34").2 '7' (by decide)⟩

/-! ## Signal trap

Embedding of `DebugPrinter::sig_names` (lines 485–492) and
`DebugPrinter::signal_handler` (lines 494–503) as the ordered list of
observable actions the handler performs.  The four trapped signals are an
enumeration (their numeric values are platform-specific).  On its first
entry the handler constructs a `static DebugPrinter`, whose constructor
re-installs the trap handler for all four signals (lines 151–157); this is
modelled by the `firstEntry` flag.  The numeric signal id printed inside
the message next to the name is platform-specific and elided from the
modelled message text. -/

/-- Fatal signals trapped by the printer, in the key order of the
`std::map` of `sig_names` (ascending signal number). -/
inductive SigName where
  | sigabrt | sigfpe | sigsegv | sigsys
deriving DecidableEq, Fintype

/-- Model of `DebugPrinter::sig_names` as a lookup function. -/
def sig_names : SigName → String
  | .sigabrt => "SIGABRT"
  | .sigfpe => "SIGFPE"
  | .sigsegv => "SIGSEGV"
  | .sigsys => "SIGSYS"

/-- Handler dispositions a `sigaction` call can install: the platform
default `SIG_DFL` or the printer's trap handler. -/
inductive HandlerDisposition where
  | default_handler | trap_handler
deriving DecidableEq, Fintype

/-- Observable actions of the signal handler. -/
inductive SigEffect where
  | emit_text (msg : String)
  | emit_stack (backtrace_size : Nat) (compact : Bool) (skip : Nat)
  | install (sig : SigName) (h : HandlerDisposition)
  | raise_sig (sig : SigName)
deriving DecidableEq

/-- Model of `DebugPrinter::signal_handler(signum)`: the ordered actions it
performs.  On first entry the `static DebugPrinter d` constructor runs,
re-installing the trap for all four signals; then the caught-signal message
and the stack trace (`max_backtrace` frames, verbose, skip 3) are emitted,
and the platform default handler is reinstalled for `signum`.  The handler
then simply returns: there is no `raise` call in its body. -/
def signal_handler (firstEntry : Bool) (signum : SigName) : List SigEffect :=
  (if firstEntry then
    [SigName.sigabrt, SigName.sigfpe, SigName.sigsegv, SigName.sigsys].map
      (fun s => SigEffect.install s HandlerDisposition.trap_handler)
  else []) ++
  [SigEffect.emit_text ("DebugPrinter handler caught signal " ++
      sig_names signum),
   SigEffect.emit_stack 50 false 3,
   SigEffect.install signum HandlerDisposition.default_handler]

/-- Claim C2 counterexample: the handler for `SIGSEGV` performs no
re-raise action at all — the claim that it re-delivers (re-raises) the
signal after reinstalling the default handler fails on the code, which
merely returns from the handler. -/
theorem signal_handler_never_raises_cex :
    SigEffect.raise_sig SigName.sigsegv ∉ signal_handler false SigName.sigsegv ∧
    SigEffect.raise_sig SigName.sigsegv ∉ signal_handler true SigName.sigsegv := by
  decide

/-- Claim C2 (amended): after emitting its stack trace, the handler for a
trapped fatal signal reinstalls the platform default handler for that
signal as its final action, but does not itself re-raise the signal — it
contains no raise action and simply returns; termination with the default
disposition then relies on the signal's re-delivery by the environment
(the faulting instruction re-executing, or `abort` re-raising on handler
return). -/
theorem signal_handler_installs_default_no_raise (fe : Bool) (s : SigName) :
    (signal_handler fe s).getLast? =
      some (SigEffect.install s HandlerDisposition.default_handler) ∧
    SigEffect.emit_stack 50 false 3 ∈ signal_handler fe s ∧
    ∀ s' : SigName, SigEffect.raise_sig s' ∉ signal_handler fe s := by
  cases fe <;> cases s <;>
    exact ⟨by decide, by decide, fun s' => by cases s' <;> decide⟩

/-! ## Stream insertion operator

Embedding of `operator<<(DebugPrinter &, const T &)` (lines 648–659).  The
`std::ostream` formatting state is modelled as its precision, its
`floatfield` component (the only flag group the operator touches, through
`setf(std::ios_base::fixed, std::ios::floatfield)`), the remaining format
flags (untouched, carried to show they stay untouched), and the emitted
character buffer.  The printed text of the streamed value is abstracted as
a function `render` of the active precision and floatfield, since the
value's own rendering is done by the underlying `std::ostream`. -/

/-- Component of `std::ios_base::fmtflags` selected by the
`std::ios::floatfield` mask. -/
inductive FloatFieldV where
  | defaultfloat | fixedfloat | scientific | hexfloat
deriving DecidableEq

/-- Formatting-relevant state of the output stream. -/
structure OStreamState where
  precision : Int
  ffield : FloatFieldV
  otherFlags : Nat
  buffer : List String
deriving DecidableEq

/-- Model of C++ `static_cast<int>` applied to a 64-bit signed
`std::streamsize`: two's-complement truncation to 32 bits (the behaviour
of every mainstream implementation, and the defined behaviour since
C++20). -/
def toInt32 (x : Int) : Int := (x + 2 ^ 31) % 2 ^ 32 - 2 ^ 31

theorem toInt32_eq_self (x : Int) (h1 : -(2 ^ 31) ≤ x) (h2 : x < 2 ^ 31) :
    toInt32 x = x := by
  simp only [toInt32]
  omega

/-- Model of `operator<<(DebugPrinter & d, const T & output)`: save the
precision; `setf(fixed, floatfield)` (saving the old flags); stream
`setprecision(static_cast<int>(d.prec_))`, `std::fixed`, the value,
`setprecision(static_cast<int>(savep))`; then
`setf(savef, std::ios::floatfield)` restores the floatfield bits.  Both
`setprecision` arguments are narrowed by `static_cast<int>` in the source
(lines 654–655), modelled by `toInt32`. -/
def dpShift (prec : Int) (render : Int → FloatFieldV → String)
    (st : OStreamState) : OStreamState :=
  let savep := st.precision
  let savef := st.ffield
  let st1 : OStreamState := { st with ffield := FloatFieldV.fixedfloat }
  let st2 : OStreamState := { st1 with precision := toInt32 prec }
  let st3 : OStreamState := { st2 with ffield := FloatFieldV.fixedfloat }
  let st4 : OStreamState :=
    { st3 with buffer := st3.buffer ++ [render st3.precision st3.ffield] }
  let st5 : OStreamState := { st4 with precision := toInt32 savep }
  { st5 with ffield := savef }

/-- Claim C9 counterexample: a stream whose pre-call precision is `2^31`
(a valid `std::streamsize`, but outside `int` range) does not get its
precision restored — `setprecision(static_cast<int>(savep))` truncates it
to `-2^31`. -/
theorem dpShift_out_of_range_precision_not_restored :
    (dpShift 5 (fun _ _ => "v")
      { precision := 2 ^ 31, ffield := FloatFieldV.defaultfloat,
        otherFlags := 0, buffer := [] }).precision = -(2 ^ 31) ∧
    (-(2 ^ 31) : Int) ≠ 2 ^ 31 := by
  constructor
  · show toInt32 (2 ^ 31) = -(2 ^ 31)
    simp only [toInt32]
    decide
  · decide

/-- Claim C9 (amended): streaming a value through the printer's
`operator<<` restores the stream's floatfield flags (and leaves the other
flags untouched) unconditionally, and restores its precision up to
`static_cast<int>` narrowing: the final precision is the pre-call
precision truncated to `int`, hence equal to the pre-call value exactly
when that value lies in `int` range; the value itself is rendered in fixed
notation with the printer's configured precision truncated to `int`. -/
theorem dpShift_restores_state_int_range (prec : Int)
    (render : Int → FloatFieldV → String) (st : OStreamState) :
    (dpShift prec render st).precision = toInt32 st.precision ∧
    (dpShift prec render st).ffield = st.ffield ∧
    (dpShift prec render st).otherFlags = st.otherFlags ∧
    (dpShift prec render st).buffer =
      st.buffer ++ [render (toInt32 prec) FloatFieldV.fixedfloat] ∧
    (-(2 ^ 31) ≤ st.precision → st.precision < 2 ^ 31 →
      (dpShift prec render st).precision = st.precision) :=
  ⟨rfl, rfl, rfl, rfl,
   fun h1 h2 => toInt32_eq_self st.precision h1 h2⟩

/-- Witness for the amended claim C9: an in-range pre-call precision (7)
is restored exactly, and the floatfield comes back as `scientific`. -/
theorem dpShift_restores_state_int_range_witness :
    (dpShift 5 (fun _ _ => "v")
      { precision := 7, ffield := FloatFieldV.scientific,
        otherFlags := 3, buffer := [] }).precision = 7 ∧
    (dpShift 5 (fun _ _ => "v")
      { precision := 7, ffield := FloatFieldV.scientific,
        otherFlags := 3, buffer := [] }).ffield = FloatFieldV.scientific := by
  have h := dpShift_restores_state_int_range 5 (fun _ _ => "v")
    { precision := 7, ffield := FloatFieldV.scientific,
      otherFlags := 3, buffer := [] }
  exact ⟨h.2.2.2.2 (by norm_num) (by norm_num), h.2.1⟩

/-! ## Stack-trace window arithmetic

Embedding of the frame-window computation of `DebugPrinter::stack`
(lines 306–334, CXXABI branch): `backtrace_size` and `begin` are signed
`int` arguments (non-negative in all claims), converted to `unsigned int`
(`uint`, modelled as `Nat` reduced modulo `2^32`):

    uint end = begin + backtrace_size;
    if(end > max_backtrace) end = max_backtrace;
    uint r = backtrace(stack, end);       // r = min(depth, end)
    if(end == max_backtrace) --r;         // prettiness hack
    end = r;
    char ** symbols = backtrace_symbols(stack, end);
    if(compact == false) out << "... " << end-begin << " stack frames:";
    if(!symbols) return;
    for(uint i = begin; i < end; ++i) ...

`depth` is the number of frames the runtime unwinder can produce
(`backtrace` returns `min(depth, end)`); since `stack()` itself is
executing, a real unwinder always yields at least one frame, which
theorems assume as `1 ≤ depth`.  `symsOk` models `backtrace_symbols`
succeeding (returning non-null); the header is printed before the null
check either way. -/

/-- Value of `DebugPrinter::max_backtrace`. -/
def max_backtrace : Nat := 50

/-- Modulus of C++ `unsigned int`. -/
def u32 : Nat := 2 ^ 32

/-- Value of the local `uint begin` (the `int` argument converted). -/
def stack_b (skip : Nat) : Nat := skip % u32

/-- Value of the local `end` after the ceiling clamp: the count of
addresses requested from `backtrace`. -/
def stack_end1 (N skip : Nat) : Nat :=
  let end0 := (stack_b skip + N) % u32
  if end0 > max_backtrace then max_backtrace else end0

/-- Value of `r` (and of the final `end`) after the `--r` ceiling hack,
given that the unwinder produced `min depth end` frames. -/
def stack_r (depth N skip : Nat) : Nat :=
  let r0 := min depth (stack_end1 N skip)
  if stack_end1 N skip = max_backtrace then (r0 + u32 - 1) % u32 else r0

/-- Frame indices the output loop `for(uint i = begin; i < end; ++i)`
visits (none when `backtrace_symbols` returned null). -/
def stack_idx (symsOk : Bool) (depth N skip : Nat) : List Nat :=
  if symsOk then List.range' (stack_b skip) (stack_r depth N skip - stack_b skip)
  else []

/-- Observable result of a `stack()` call. -/
structure StackResult where
  requested : Nat
  header : Option Nat
  printedIdx : List Nat
  lines : List String

/-- Model of `DebugPrinter::stack(backtrace_size, compact, begin)`:
the count requested from the unwinder, the frame count printed in the
verbose header (`end-begin` in `uint` arithmetic; `none` in compact mode),
the loop's frame indices, and the per-frame output lines. -/
def stackModel (cxa : String → Int × Option String) (syms : Nat → String)
    (symsOk : Bool) (depth N : Nat) (compact : Bool) (skip : Nat) :
    StackResult :=
  { requested := stack_end1 N skip
    header := if compact = false then
        some ((stack_r depth N skip + u32 - stack_b skip) % u32)
      else none
    printedIdx := stack_idx symsOk depth N skip
    lines := (stack_idx symsOk depth N skip).flatMap
      (fun i => processFrame cxa compact (syms i)) }

/-! ### Helper lemmas for the window arithmetic -/

theorem stack_b_eq (skip : Nat) (hskip : skip < 2 ^ 31) :
    stack_b skip = skip := by
  simp only [stack_b, u32]
  omega

theorem stack_end1_eq (N skip : Nat) (hskip : skip < 2 ^ 31)
    (hN : N < 2 ^ 31) : stack_end1 N skip = min (skip + N) 50 := by
  simp only [stack_end1, stack_b, u32, max_backtrace]
  split_ifs <;> omega

theorem stack_r_eq (depth N skip : Nat) (hdepth : 1 ≤ depth)
    (hskip : skip < 2 ^ 31) (hN : N < 2 ^ 31) :
    stack_r depth N skip =
      if 50 ≤ skip + N then min depth 50 - 1 else min depth (skip + N) := by
  have he := stack_end1_eq N skip hskip hN
  simp only [stack_r, he, u32, max_backtrace]
  split_ifs <;> omega

theorem stack_r_le_depth (depth N skip : Nat) (hdepth : 1 ≤ depth)
    (hskip : skip < 2 ^ 31) (hN : N < 2 ^ 31) :
    stack_r depth N skip ≤ depth := by
  rw [stack_r_eq depth N skip hdepth hskip hN]
  split_ifs <;> omega

theorem length_flatMap_le (l : List Nat) (f : Nat → List String)
    (h : ∀ a, (f a).length ≤ 1) : (l.flatMap f).length ≤ l.length := by
  induction l with
  | nil => simp
  | cons a as ih =>
    rw [List.flatMap_cons, List.length_append, List.length_cons]
    have := h a
    omega

theorem length_flatMap_eq (l : List Nat) (f : Nat → List String)
    (h : ∀ a, (f a).length = 1) : (l.flatMap f).length = l.length := by
  induction l with
  | nil => simp
  | cons a as ih =>
    rw [List.flatMap_cons, List.length_append, List.length_cons, ih, h a]
    omega

/-! ### Claims C8, C10, C1 -/

/-- Claim C8: for every requested frame count `N ≥ 0` and skip count
`begin ≥ 0` (both within `int` range, and with the unwinder producing at
least the one frame `stack()` itself occupies), `stack(N, compact, begin)`
emits at most `N` per-frame lines, and the address count requested from
the unwinder is at most `N + begin` and at most the hard ceiling 50. -/
theorem stack_respects_request_bounds (cxa : String → Int × Option String)
    (syms : Nat → String) (symsOk : Bool) (depth N : Nat) (compact : Bool)
    (skip : Nat) (hdepth : 1 ≤ depth) (hskip : skip < 2 ^ 31)
    (hN : N < 2 ^ 31) :
    (stackModel cxa syms symsOk depth N compact skip).lines.length ≤ N ∧
    (stackModel cxa syms symsOk depth N compact skip).requested ≤ N + skip ∧
    (stackModel cxa syms symsOk depth N compact skip).requested ≤ 50 := by
  have hb := stack_b_eq skip hskip
  have he := stack_end1_eq N skip hskip hN
  have hr := stack_r_eq depth N skip hdepth hskip hN
  refine ⟨?_, ?_, ?_⟩
  · have h1 := length_flatMap_le (stack_idx symsOk depth N skip)
      (fun i => processFrame cxa compact (syms i))
      (fun i => processFrame_length_le cxa compact (syms i))
    have h2 : (stack_idx symsOk depth N skip).length ≤
        stack_r depth N skip - stack_b skip := by
      unfold stack_idx
      split
      · rw [List.length_range']
      · simp
    rw [hb, hr] at h2
    have hgoal : (stackModel cxa syms symsOk depth N compact skip).lines =
        (stack_idx symsOk depth N skip).flatMap
          (fun i => processFrame cxa compact (syms i)) := rfl
    rw [hgoal]
    split_ifs at h2 <;> omega
  · have hgoal : (stackModel cxa syms symsOk depth N compact skip).requested =
        stack_end1 N skip := rfl
    rw [hgoal, he]
    omega
  · have hgoal : (stackModel cxa syms symsOk depth N compact skip).requested =
        stack_end1 N skip := rfl
    rw [hgoal, he]
    omega

/-- Witness for claim C8: `stack(3, false, 1)` on a 10-deep stack emits at
most 3 lines and requests at most 4 (≤ 50) addresses. -/
theorem stack_respects_request_bounds_witness :
    (stackModel (fun _ => ((0 : Int), (none : Option String))) (fun _ => "")
      true 10 3 false 1).lines.length ≤ 3 ∧
    (stackModel (fun _ => ((0 : Int), (none : Option String))) (fun _ => "")
      true 10 3 false 1).requested ≤ 3 + 1 ∧
    (stackModel (fun _ => ((0 : Int), (none : Option String))) (fun _ => "")
      true 10 3 false 1).requested ≤ 50 :=
  stack_respects_request_bounds (fun _ => ((0 : Int), (none : Option String)))
    (fun _ => "") true 10 3 false 1 (by norm_num) (by norm_num) (by norm_num)

/-- Claim C10: whenever the requested window reaches the 50-frame ceiling
(`skip + N ≥ 50`), `stack()` discards one frame of what the unwinder
returned (`min depth 50` frames): the loop covers indices
`[skip, min depth 50 - 1)`, so the outermost received frame (index
`min depth 50 - 1`) is never printed, exactly `min depth 50 - 1 - skip`
lines are formatted, and the verbose header counts one frame fewer than
the `min depth 50 - skip` frames the unwinder produced past the skip. -/
theorem stack_ceiling_discards_one_frame (cxa : String → Int × Option String)
    (syms : Nat → String) (depth N skip : Nat) (compact : Bool)
    (hcap : 50 ≤ skip + N) (hdepth : 1 ≤ depth) (hskip : skip < 2 ^ 31)
    (hN : N < 2 ^ 31) :
    (stackModel cxa syms true depth N compact skip).printedIdx =
      List.range' skip (min depth 50 - 1 - skip) ∧
    (min depth 50 - 1) ∉
      (stackModel cxa syms true depth N compact skip).printedIdx ∧
    (stackModel cxa syms true depth N compact skip).lines.length =
      min depth 50 - 1 - skip ∧
    (compact = false → skip + 1 ≤ min depth 50 →
      (stackModel cxa syms true depth N compact skip).header =
        some (min depth 50 - 1 - skip) ∧
      (min depth 50 - 1 - skip) + 1 = min depth 50 - skip) := by
  have hb := stack_b_eq skip hskip
  have hr := stack_r_eq depth N skip hdepth hskip hN
  rw [if_pos hcap] at hr
  have hidx : stack_idx true depth N skip =
      List.range' skip (min depth 50 - 1 - skip) := by
    unfold stack_idx
    rw [if_pos rfl, hb, hr]
  have hpr : (stackModel cxa syms true depth N compact skip).printedIdx =
      stack_idx true depth N skip := rfl
  refine ⟨?_, ?_, ?_, ?_⟩
  · rw [hpr, hidx]
  · rw [hpr, hidx, List.mem_range'_1]
    omega
  · have hl : (stackModel cxa syms true depth N compact skip).lines =
        (stack_idx true depth N skip).flatMap
          (fun i => processFrame cxa compact (syms i)) := rfl
    rw [hl, length_flatMap_eq _ _
      (fun i => processFrame_length_eq cxa compact (syms i)), hidx,
      List.length_range']
  · intro hc hlt
    constructor
    · have hh : (stackModel cxa syms true depth N compact skip).header =
          if compact = false then
            some ((stack_r depth N skip + u32 - stack_b skip) % u32)
          else none := rfl
      rw [hh, if_pos hc, hb, hr]
      have harith : (min depth 50 - 1 + u32 - skip) % u32 =
          min depth 50 - 1 - skip := by
        simp only [u32]
        omega
      rw [harith]
    · omega

/-- Witness for claim C10: `stack(50, false, 1)` on a 10-deep stack prints
frames 1–8, never frame 9 (the outermost received), emits 8 lines, and the
header counts 8 = (10 − 1) − 1 frames. -/
theorem stack_ceiling_discards_one_frame_witness :
    (stackModel (fun _ => ((0 : Int), (none : Option String))) (fun _ => "")
      true 10 50 false 1).printedIdx = List.range' 1 8 ∧
    (9 : Nat) ∉ (stackModel (fun _ => ((0 : Int), (none : Option String)))
      (fun _ => "") true 10 50 false 1).printedIdx ∧
    (stackModel (fun _ => ((0 : Int), (none : Option String))) (fun _ => "")
      true 10 50 false 1).lines.length = 8 ∧
    (stackModel (fun _ => ((0 : Int), (none : Option String))) (fun _ => "")
      true 10 50 false 1).header = some 8 ∧ 8 + 1 = 10 - 1 := by
  have h := stack_ceiling_discards_one_frame
    (fun _ => ((0 : Int), (none : Option String))) (fun _ => "") 10 50 1 false
    (by norm_num) (by norm_num) (by norm_num) (by norm_num)
  exact ⟨h.1, h.2.1, h.2.2.1, (h.2.2.2 rfl (by norm_num)).1,
    (h.2.2.2 rfl (by norm_num)).2⟩

/-- Claim C1 counterexample: `stack(1, false, 2)` when the resolver
produced a single frame emits zero per-frame lines, but the verbose header
reports `4294967295` frames — the `uint` subtraction `end - begin` wraps
instead of clamping to the zero the claim requires. -/
theorem stack_skip_exceeds_header_not_zero :
    (stackModel (fun _ => ((0 : Int), (none : Option String))) (fun _ => "")
      true 1 1 false 2).lines = [] ∧
    (stackModel (fun _ => ((0 : Int), (none : Option String))) (fun _ => "")
      true 1 1 false 2).header = some 4294967295 ∧
    (4294967295 : Nat) ≠ 0 := by
  decide

/-- Claim C1 (amended): when the skip count `begin` is at least the number
of frames the resolver produced (the hack-adjusted resolved count
`stack_r`), `stack()` emits zero per-frame lines and completes without
error, but the verbose header's frame count is the unsigned 32-bit
difference `end - begin`: it is `0` only when the resolved count equals
`begin`, and otherwise wraps to `2^32 - (begin - resolved)` instead of
clamping to zero. -/
theorem stack_skip_ge_frames_no_lines_header_wraps
    (cxa : String → Int × Option String) (syms : Nat → String)
    (symsOk : Bool) (depth N skip : Nat)
    (hrle : stack_r depth N skip ≤ skip) (hskip : skip < 2 ^ 31) :
    (stackModel cxa syms symsOk depth N false skip).lines = [] ∧
    (stackModel cxa syms symsOk depth N false skip).header =
      some (if stack_r depth N skip = skip then 0
        else u32 - (skip - stack_r depth N skip)) := by
  have hb := stack_b_eq skip hskip
  constructor
  · have hl : (stackModel cxa syms symsOk depth N false skip).lines =
        (stack_idx symsOk depth N skip).flatMap
          (fun i => processFrame cxa false (syms i)) := rfl
    have hz : stack_r depth N skip - stack_b skip = 0 := by
      rw [hb]; omega
    rw [hl]
    unfold stack_idx
    rw [hz]
    cases symsOk <;> simp
  · have hh : (stackModel cxa syms symsOk depth N false skip).header =
        some ((stack_r depth N skip + u32 - stack_b skip) % u32) := rfl
    rw [hh, hb]
    have harith : (stack_r depth N skip + u32 - skip) % u32 =
        if stack_r depth N skip = skip then 0
        else u32 - (skip - stack_r depth N skip) := by
      simp only [u32]
      split_ifs <;> omega
    rw [harith]

/-- Witness for the amended claim C1: skip 2 with one resolved frame gives
zero lines and the wrapped header value `2^32 - 1`. -/
theorem stack_skip_ge_frames_no_lines_header_wraps_witness :
    (stackModel (fun _ => ((0 : Int), (none : Option String))) (fun _ => "")
      true 1 5 false 2).lines = [] ∧
    (stackModel (fun _ => ((0 : Int), (none : Option String))) (fun _ => "")
      true 1 5 false 2).header = some 4294967295 := by
  have h := stack_skip_ge_frames_no_lines_header_wraps
    (fun _ => ((0 : Int), (none : Option String))) (fun _ => "") true 1 5 2
    (by decide) (by norm_num)
  exact ⟨h.1, h.2⟩
